import Mathlib

set_option linter.unusedVariables false

/-!
# Verification of the Flore botanical lookup app (src/app.py)

A shallow embedding of the Streamlit application `app.py`.  The app is a
chain of pure string/HTML computations wrapped around network fetches; we
embed each function as a total Lean function whose network-dependent inputs
(the fetched page, the decoded JSON response, the CSV file contents) are
passed explicitly.  Python's `str` library operations are modelled at the
ASCII level (`str.lower` lowers only A–Z, `str.strip` removes the four
standard whitespace characters), which matches their behaviour on the data
this program manipulates.
-/

/-! ## Python string primitives -/

/-- ASCII model of Python `str.lower` on a single character. -/
def pyLowerChar (c : Char) : Char :=
  if 65 ≤ c.toNat ∧ c.toNat ≤ 90 then Char.ofNat (c.toNat + 32) else c

/-- Model of Python `str.lower` (ASCII letters only). -/
def pyLower (s : String) : String :=
  String.mk (s.data.map pyLowerChar)

/-- Remove leading and trailing whitespace from a character list. -/
def stripChars (cs : List Char) : List Char :=
  ((cs.dropWhile Char.isWhitespace).reverse.dropWhile Char.isWhitespace).reverse

/-- Model of Python `str.strip` with no argument. -/
def pyStrip (s : String) : String :=
  String.mk (stripChars s.data)

/-- Boolean test: `pat` is a prefix of `cs` (element-wise). -/
def listPrefixB (pat cs : List Char) : Bool :=
  match pat, cs with
  | [], _ => true
  | _ :: _, [] => false
  | a :: as, b :: bs => a == b && listPrefixB as bs

/-- Boolean test: `pat` occurs as a contiguous sublist of `cs`.
Model of Python's `pat in s` substring test. -/
def listSub (pat : List Char) : List Char → Bool
  | [] => pat.isEmpty
  | c :: cs => listPrefixB pat (c :: cs) || listSub pat cs

/-- Model of Python's `pat in s` on strings. -/
def containsStr (s pat : String) : Bool :=
  listSub pat.data s.data

/-- Model of Python `s.startswith(pat)` / the CSS `^=` attribute test. -/
def strStarts (s pat : String) : Bool :=
  listPrefixB pat.data s.data

/-- Model of Python `s.endswith(pat)` / the CSS `$=` attribute test. -/
def strEnds (s pat : String) : Bool :=
  listPrefixB pat.data.reverse s.data.reverse

/-- Split a character list at every character satisfying `p`, keeping empty
pieces.  `splitKeepP p [] = [[]]`, matching the behaviour of splitting an
empty field list. -/
def splitKeepP (p : Char → Bool) : List Char → List (List Char)
  | [] => [[]]
  | c :: cs =>
    if p c then [] :: splitKeepP p cs
    else
      match splitKeepP p cs with
      | [] => [[c]]
      | l :: ls => (c :: l) :: ls

/-- Split into lines at `\n` or `\r`.  Model of Python `str.splitlines`:
the empty string yields no lines and a trailing newline yields no extra
empty line.  (A `\r\n` pair is treated as two separators; the extra empty
line this produces is always discarded by the callers, which filter out
blank lines.) -/
def splitLinesAux : List Char → List (List Char)
  | [] => []
  | c :: cs =>
    if c = '\n' ∨ c = '\r' then [] :: splitLinesAux cs
    else
      match splitLinesAux cs with
      | [] => [[c]]
      | l :: ls => (c :: l) :: ls

/-- Model of Python `str.splitlines`. -/
def pySplitlines (s : String) : List String :=
  (splitLinesAux s.data).map String.mk

/-- Parse a (possibly signed) decimal digit list. -/
def digitsVal : List Char → Option Nat
  | [] => none
  | cs => cs.foldl (fun acc c => acc.bind fun n =>
      if c.isDigit then some (n * 10 + (c.toNat - 48)) else none) (some 0)

/-- Model of Python `int(s)`: optional surrounding whitespace, optional
sign, then decimal digits; `none` models a raised `ValueError`.
(Underscore digit grouping is not modelled.) -/
def pyInt? (s : String) : Option Int :=
  match stripChars s.data with
  | '-' :: ds => (digitsVal ds).map fun n => -(n : Int)
  | '+' :: ds => (digitsVal ds).map fun n => (n : Int)
  | ds => (digitsVal ds).map fun n => (n : Int)

/-- Model of `str.replace('px', '')`: delete every (left-to-right,
non-overlapping) occurrence of `"px"`. -/
def stripPx : List Char → List Char
  | 'p' :: 'x' :: cs => stripPx cs
  | c :: cs => c :: stripPx cs
  | [] => []

/-- Uppercase hexadecimal digit, as produced by `urllib.parse.quote_plus`. -/
def hexDigit (n : Nat) : Char :=
  if n < 10 then Char.ofNat (48 + n) else Char.ofNat (55 + n)

/-- The UTF-8 byte values encoding one character. -/
def utf8Bytes (c : Char) : List Nat :=
  let n := c.toNat
  if n < 0x80 then [n]
  else if n < 0x800 then [0xC0 + n / 64, 0x80 + n % 64]
  else if n < 0x10000 then [0xE0 + n / 4096, 0x80 + (n / 64) % 64, 0x80 + n % 64]
  else [0xF0 + n / 262144, 0x80 + (n / 4096) % 64, 0x80 + (n / 64) % 64, 0x80 + n % 64]

/-- Model of `urllib.parse.quote_plus`: UTF-8 percent-encoding with spaces
encoded as `+` and the unreserved characters (alphanumerics and `_.-~`)
kept verbatim. -/
def quote_plus (s : String) : String :=
  String.mk ((s.data.flatMap utf8Bytes).flatMap fun n =>
    if (48 ≤ n ∧ n ≤ 57) ∨ (65 ≤ n ∧ n ≤ 90) ∨ (97 ≤ n ∧ n ≤ 122)
        ∨ n = 95 ∨ n = 46 ∨ n = 45 ∨ n = 126 then [Char.ofNat n]
    else if n = 32 then ['+']
    else ['%', hexDigit (n / 16), hexDigit (n % 16)])

/-- Index of the first occurrence of `pat` in `cs`, if any. -/
def findSubIdx (pat : List Char) : List Char → Option Nat
  | [] => if pat.isEmpty then some 0 else none
  | c :: cs =>
    if listPrefixB pat (c :: cs) then some 0
    else (findSubIdx pat cs).map (· + 1)

/-- Last index of `ch` in `cs`, if any. -/
def lastIdxOf (ch : Char) (cs : List Char) : Option Nat :=
  (findSubIdx [ch] cs.reverse).map fun i => cs.length - 1 - i

/-- Model of `urllib.parse.urljoin` covering the reference shapes the app
produces: absolute references are returned unchanged, absolute-path
references replace the base path, and relative references replace the last
segment of the base path (the base query string being dropped).
Dot-segment normalization is not modelled. -/
def urljoin (base rel : String) : String :=
  if rel = "" then base
  else if containsStr rel "://" then rel
  else
    match findSubIdx "://".data base.data with
    | none => rel
    | some i =>
      let afterScheme := base.data.drop (i + 3)
      let host := afterScheme.takeWhile (fun c => c ≠ '/')
      let schemeHost := String.mk (base.data.take (i + 3) ++ host)
      if strStarts rel "/" then schemeHost ++ rel
      else
        let path := afterScheme.drop host.length
        let pathNoQuery := path.takeWhile (fun c => c ≠ '?' ∧ c ≠ '#')
        match lastIdxOf '/' pathNoQuery with
        | none => schemeHost ++ "/" ++ rel
        | some j => schemeHost ++ String.mk (pathNoQuery.take (j + 1)) ++ rel

/-! ## HTML document model

Parsed HTML pages (the result of `BeautifulSoup(html, "lxml")`) are
modelled as element trees.  CSS selection works on the pre-order
(document-order) traversal, each element paired with its ancestor chain,
exactly the order in which BeautifulSoup's `select`/`select_one` report
matches.  As in BeautifulSoup, selecting from a tag searches its strict
descendants. -/

/-- An HTML node: an element with a tag name, attributes and children, or
a text node. -/
inductive Node where
  | elem (tag : String) (attrs : List (String × String)) (children : List Node)
  | text (s : String)

/-- Attribute lookup on an element. -/
def getAttr : Node → String → Option String
  | .elem _ attrs _, k => (attrs.find? fun p => p.1 == k).map (·.2)
  | .text _, _ => none

/-- `has_attr` test. -/
def hasAttrB (n : Node) (k : String) : Bool :=
  (getAttr n k).isSome

/-- Attribute lookup with a default, model of `tag.get(k, d)`. -/
def attrD (n : Node) (k d : String) : String :=
  (getAttr n k).getD d

/-- The whitespace-separated class list of an element. -/
def classList (n : Node) : List String :=
  ((splitKeepP Char.isWhitespace ((attrD n "class" "").data)).map String.mk).filter
    fun w => !(w == "")

/-- CSS class test `.c`. -/
def hasClass (n : Node) (c : String) : Bool :=
  (classList n).contains c

/-- CSS tag test. -/
def tagIs (t : String) (n : Node) : Bool :=
  match n with
  | .elem tag _ _ => tag == t
  | .text _ => false

/-- CSS `[k^='v']` test. -/
def attrStarts (n : Node) (k v : String) : Bool :=
  match getAttr n k with
  | some s => strStarts s v
  | none => false

/-- CSS `[k$='v']` test. -/
def attrEnds (n : Node) (k v : String) : Bool :=
  match getAttr n k with
  | some s => strEnds s v
  | none => false

/-- CSS `[k*='v']` test. -/
def attrContains (n : Node) (k v : String) : Bool :=
  match getAttr n k with
  | some s => containsStr s v
  | none => false

/-- CSS `#id` test. -/
def idIs (n : Node) (v : String) : Bool :=
  getAttr n "id" == some v

mutual

/-- Pre-order traversal of a node, each visited element paired with its
ancestor chain (nearest ancestor first, topmost last). -/
def nodesWA : Node → List Node → List (Node × List Node)
  | .text _, _ => []
  | .elem t a cs, anc =>
    (Node.elem t a cs, anc) :: listWA cs (Node.elem t a cs :: anc)

/-- Pre-order traversal of a list of sibling nodes. -/
def listWA : List Node → List Node → List (Node × List Node)
  | [], _ => []
  | c :: cs, anc => nodesWA c anc ++ listWA cs anc

end

/-- A selector: a predicate on an element together with its ancestors. -/
def Sel : Type := Node × List Node → Bool

/-- All strict descendants of `root`, in document order, paired with their
ancestor chains (truncated at `root`). -/
def selectAllWA (root : Node) : List (Node × List Node) :=
  match root with
  | .text _ => []
  | .elem t a cs => listWA cs [Node.elem t a cs]

/-- Model of `tag.select_one(sel)` / `soup.select_one(sel)`: the first
descendant matching the selector, in document order. -/
def selectOne (root : Node) (s : Sel) : Option Node :=
  ((selectAllWA root).find? fun p => s p).map (·.1)

/-- Model of `tag.select(sel)` / `soup.find_all(...)`: all descendants
matching the selector, in document order. -/
def selectAll (root : Node) (s : Sel) : List Node :=
  ((selectAllWA root).filter fun p => s p).map (·.1)

/-- A compound selector `anc desc` (descendant combinator). -/
def selDesc (anc self : Node → Bool) : Sel :=
  fun p => self p.1 && p.2.any anc

/-- A compound selector `par > child` (child combinator). -/
def selChild (par self : Node → Bool) : Sel :=
  fun p => self p.1 &&
    (match p.2 with
     | parent :: _ => par parent
     | [] => false)

/-- A simple selector, depending only on the element itself. -/
def selSimple (f : Node → Bool) : Sel :=
  fun p => f p.1

mutual

/-- The text fragments of a node's subtree, in document order. -/
def nodeText : Node → List String
  | .text s => [s]
  | .elem _ _ cs => listText cs

/-- The text fragments of a list of sibling nodes. -/
def listText : List Node → List String
  | [] => []
  | c :: cs => nodeText c ++ listText cs

end

/-- Model of `tag.get_text(separator=' ', strip=True)`: each text fragment
is stripped, whitespace-only fragments are dropped, and the remainder is
joined with single spaces. -/
def getTextStrip (n : Node) : String :=
  String.intercalate " " (((nodeText n).map pyStrip).filter fun s => !(s == ""))

/-! ## JSON model

Decoded JSON values, as returned by `response.json()`.  Numbers are
modelled as integers (the eFlore API returns integral identifiers). -/

/-- A decoded JSON value. -/
inductive Json where
  | null
  | bool (b : Bool)
  | num (n : Int)
  | str (s : String)
  | arr (xs : List Json)
  | obj (fields : List (String × Json))

/-- Python truthiness of a decoded JSON value (`if not data: ...`). -/
def pyTruthy : Json → Bool
  | .null => false
  | .bool b => b
  | .num n => n != 0
  | .str s => s != ""
  | .arr xs => !xs.isEmpty
  | .obj fs => !fs.isEmpty

mutual

/-- Python `repr` of a decoded JSON value, as used for values nested inside
containers (string escaping is not modelled). -/
def jsonRepr : Json → String
  | .str s => "'" ++ s ++ "'"
  | .num n => toString n
  | .bool true => "True"
  | .bool false => "False"
  | .null => "None"
  | .arr xs => "[" ++ jsonReprList xs ++ "]"
  | .obj fs => "\x7b" ++ jsonReprFields fs ++ "\x7d"

/-- Comma-separated `repr` of a list of JSON values. -/
def jsonReprList : List Json → String
  | [] => ""
  | [x] => jsonRepr x
  | x :: xs => jsonRepr x ++ ", " ++ jsonReprList xs

/-- Comma-separated `repr` of the fields of a JSON object. -/
def jsonReprFields : List (String × Json) → String
  | [] => ""
  | [(k, v)] => "'" ++ k ++ "': " ++ jsonRepr v
  | (k, v) :: fs => "'" ++ k ++ "': " ++ jsonRepr v ++ ", " ++ jsonReprFields fs

end

/-- Python `str` of a decoded JSON value, as interpolated by an f-string. -/
def jsonStr (j : Json) : String :=
  match j with
  | .str s => s
  | _ => jsonRepr j

/-- Model of `dict.get(k)` on a decoded JSON object. -/
def jsonGet (fields : List (String × Json)) (k : String) : Option Json :=
  (fields.find? fun p => p.1 == k).map (·.2)

/-! ## CSV loading (`load_cd_ref_data`, app.py lines 59–163)

`pd.read_csv(csv_path, header=1, dtype=str, delimiter=d,
on_bad_lines='skip', skipinitialspace=True)` is modelled on the file's
line list: the second line is the header, later lines are data rows,
fields are split at the delimiter with spaces after a delimiter skipped,
empty fields read as missing values (pandas `NaN`), rows with more fields
than the header are skipped (`on_bad_lines='skip'`) and shorter rows are
padded with missing values.  Duplicate header names are disambiguated with
`.1`, `.2`, … suffixes as pandas does.  (Quoting and blank-line skipping
are not modelled; selection with duplicate column labels, which would
crash the program, is modelled positionally.) -/

/-- A raw parsed CSV: header names (whitespace-stripped, as the program
strips them) and data rows of optional field values. -/
structure RawCSV where
  columns : List String
  rows : List (List (Option String))

/-- pandas-style disambiguation of duplicate column names. -/
def mangleAux (seen : List String) : List String → List String
  | [] => []
  | n :: ns =>
    let k := seen.count n
    (if k = 0 then n else n ++ "." ++ toString k) :: mangleAux (n :: seen) ns

/-- Disambiguate duplicate column names. -/
def mangleDupes (names : List String) : List String :=
  mangleAux [] names

/-- Split one CSV line into fields at delimiter `d`, skipping spaces after
each delimiter (`skipinitialspace=True`). -/
def splitFields (d : Char) (line : String) : List String :=
  match (splitKeepP (fun c => c == d) line.data).map String.mk with
  | [] => []
  | f :: fs => f :: fs.map fun s => String.mk (s.data.dropWhile fun c => c == ' ')

/-- An empty field is a missing value. -/
def emptyToNone (s : String) : Option String :=
  if s = "" then none else some s

/-- Pad a row with missing values up to the header width. -/
def padTo (n : Nat) (xs : List (Option String)) : List (Option String) :=
  xs ++ List.replicate (n - xs.length) none

/-- Model of the `pd.read_csv(..., header=1, ...)` call for one candidate
delimiter, applied to the file's lines.  `none` models a raised parse
error (fewer than two lines for `header=1`). -/
def readCsv (lines : List String) (d : Char) : Option RawCSV :=
  match lines with
  | _ :: header :: dataLines =>
    let cols := (mangleDupes (splitFields d header)).map pyStrip
    let rows := dataLines.filterMap fun line =>
      let fs := (splitFields d line).map emptyToNone
      if cols.length < fs.length then none
      else some (padTo cols.length fs)
    some ⟨cols, rows⟩
  | _ => none

/-- Column selection of `load_cd_ref_data`: if columns `CD_REF` and
`NOM LATIN` both exist they are selected by name (scenario 1); otherwise,
with at least two columns, the first two are renamed to `CD_REF` and
`NOM LATIN` and selected (scenario 2); otherwise this delimiter fails. -/
def selectCols (r : RawCSV) : Option (List (Option String × Option String)) :=
  if r.columns.contains "CD_REF" && r.columns.contains "NOM LATIN" then
    let i := r.columns.findIdx fun c => c == "CD_REF"
    let j := r.columns.findIdx fun c => c == "NOM LATIN"
    some (r.rows.map fun row => (row.getD i none, row.getD j none))
  else if 2 ≤ r.columns.length then
    some (r.rows.map fun row => (row.getD 0 none, row.getD 1 none))
  else none

/-- The delimiter loop of `load_cd_ref_data`, translated statement by
statement: each delimiter is tried in turn, and the loop breaks at the
first delimiter whose read and column selection succeed. -/
def delimLoop (lines : List String) : List Char → Option (List (Option String × Option String))
  | [] => none
  | d :: ds =>
    match (readCsv lines d).bind selectCols with
    | some df => some df
    | none => delimLoop lines ds

/-- One row of the loaded taxon table: the `CD_REF` and `NOM LATIN`
columns plus the derived `NOM_LATIN_normalized` column. -/
structure TaxRow where
  cd_ref : String
  nom_latin : String
  nom_latin_normalized : String
deriving DecidableEq

/-- The loaded taxon table (`TAXREF_DATA` when loading succeeds). -/
abbrev TaxDF := List TaxRow

/-- Model of pandas `astype(str)` on a value read with `dtype=str`:
missing values become the string `"nan"`. -/
def pyStr : Option String → String
  | none => "nan"
  | some s => s

/-- The post-loop cleaning of `load_cd_ref_data` (lines 131–150): both
columns are converted with `astype(str)`, `NOM_LATIN_normalized` is the
stripped and lower-cased `NOM LATIN`, rows whose stripped `CD_REF` or
`NOM LATIN` is empty are dropped, and an empty result yields `None`.
(The `dropna` call in the source is a no-op at this point: `astype(str)`
has already turned every missing value into the string `"nan"`.) -/
def postClean (df0 : List (Option String × Option String)) : Option TaxDF :=
  if df0.isEmpty then none
  else
    let df1 : TaxDF := df0.map fun p =>
      let cs := pyStr p.1
      let ns := pyStr p.2
      ⟨cs, ns, pyLower (pyStrip ns)⟩
    let df2 := df1.filter fun r => !(pyStrip r.cd_ref == "")
    let df3 := df2.filter fun r => !(pyStrip r.nom_latin == "")
    if df3.isEmpty then none else some df3

/-- `load_cd_ref_data` (app.py lines 59–161).  The input is the CSV file's
contents as a line list; `none` models `FileNotFoundError` and an empty
file models `pd.errors.EmptyDataError` — both return `None` at once.  The
delimiters `','`, `'\t'`, `';'` are tried in this order. -/
def load_cd_ref_data (file : Option (List String)) : Option TaxDF :=
  match file with
  | none => none
  | some [] => none
  | some lines =>
    match delimLoop lines [',', '\t', ';'] with
    | none => none
    | some df0 => postClean df0

/-- `get_cd_ref_from_csv` (app.py lines 403–424): normalize the requested
name with `strip().lower()`, filter `TAXREF_DATA` for rows whose
`NOM_LATIN_normalized` equals it, and return the first match's `CD_REF`
(`str(...)` of an already-string value).  Returns `None` when the table
was never loaded or no row matches. -/
def get_cd_ref_from_csv (taxrefData : Option TaxDF) (species_name : String) : Option String :=
  match taxrefData with
  | none => none
  | some rows =>
    let normalized := pyLower (pyStrip species_name)
    match rows.filter fun r => r.nom_latin_normalized == normalized with
    | [] => none
    | r :: _ => some r.cd_ref

/-- `get_cd_ref_from_csv` with an explicit log of the HTTP requests its
body performs.  The body only consults the in-memory `TAXREF_DATA` table:
it contains no `requests` call, so the log is empty. -/
def get_cd_ref_from_csvT (taxrefData : Option TaxDF) (species_name : String) :
    Option String × List String :=
  (get_cd_ref_from_csv taxrefData species_name, [])

/-! ## Network outcomes -/

/-- A failed HTTP interaction: `requests.RequestException` (connection
errors, timeouts, `raise_for_status`) or any other unexpected exception
caught by the surrounding handler. -/
inductive ReqError where
  | requestException (msg : String)
  | unexpected (msg : String)

/-- A successfully fetched FloreAlpes results page: its final URL
(`results_response.url`, after redirects), its raw text
(`results_response.text`) and its parsed document. -/
structure FAResponse where
  url : String
  text : String
  doc : Node

/-- `fetch_html` (app.py lines 169–184): on success the parsed page, on a
`requests.RequestException` a logged warning and `None`. -/
def fetch_html (fetched : Except ReqError Node) : Option Node :=
  match fetched with
  | .error _ => none
  | .ok soup => some soup

/-! ## `florealpes_search` (app.py lines 186–282) -/

/-- The three no-result messages recognised on a FloreAlpes results
page. -/
def noResultsMessages : List String :=
  ["aucun résultat à votre requête",
   "pas de résultats trouvés pour cette recherche",
   "aucun taxon ne correspond à votre recherche"]

/-- Selector `#principal div.conteneur_tab`. -/
def selContainer : Sel :=
  selDesc (fun n => idIs n "principal")
    (fun n => tagIs "div" n && hasClass n "conteneur_tab")

/-- Selector `table.resultats`. -/
def selTableResultats : Sel :=
  selSimple fun n => tagIs "table" n && hasClass n "resultats"

/-- Selector `table`. -/
def selTable : Sel :=
  selSimple (tagIs "table")

/-- Selector `tr`.  The source selects `"tbody > tr, tr"`; since every row
matched by `tbody > tr` is also matched by `tr`, the group is equivalent
to all `tr` descendants in document order. -/
def selTr : Sel :=
  selSimple (tagIs "tr")

/-- Selector `td`. -/
def selTd : Sel :=
  selSimple (tagIs "td")

/-- Selector `td.symb > a[href^='fiche_']`. -/
def selRowFicheLink : Sel :=
  selChild (fun n => tagIs "td" n && hasClass n "symb")
    (fun n => tagIs "a" n && attrStarts n "href" "fiche_")

/-- Selector `a[href^='fiche_']`. -/
def selGenericFicheLink : Sel :=
  selSimple fun n => tagIs "a" n && attrStarts n "href" "fiche_"

/-- The link lookup inside one results row:
`row.select_one("td.symb > a[href^='fiche_']")`. -/
def rowFicheLink (row : Node) : Option Node :=
  selectOne row selRowFicheLink

/-- The `for row in data_rows` loop of `florealpes_search`, translated
with its `break`: the first row yielding a fiche link stops the scan. -/
def findRowLink : List Node → Option Node
  | [] => none
  | row :: rest =>
    match rowFicheLink row with
    | some link => some link
    | none => findRowLink rest

/-- The body of `florealpes_search` applied to a successfully fetched
results page, translated statement by statement from app.py lines
221–275. -/
def florealpes_searchResp (resp : FAResponse) : Option String :=
  let pageTextLower := pyLower resp.text
  if noResultsMessages.any (fun m => containsStr pageTextLower m) then none
  else
    let container := selectOne resp.doc selContainer
    let resultsTable :=
      container.bind fun c =>
        match selectOne c selTableResultats with
        | some t => some t
        | none => selectOne c selTable
    let linkTag :=
      resultsTable.bind fun t => findRowLink (selectAll t selTr)
    let direct :=
      match linkTag with
      | some a =>
        if hasAttrB a "href" then some (urljoin resp.url (attrD a "href" "")) else none
      | none => none
    match direct with
    | some u => some u
    | none =>
      if containsStr resp.url "fiche_" && containsStr resp.url ".php" then
        some resp.url
      else
        match selectOne resp.doc selGenericFicheLink with
        | some g =>
          if hasAttrB g "href" then some (urljoin resp.url (attrD g "href" "")) else none
        | none => none

/-- `florealpes_search` (app.py lines 186–282): the species only shapes
the outgoing request; the outcome of the search request is passed in.
Any `requests.RequestException` or unexpected exception is caught and
yields `None`. -/
def florealpes_search (species : String) (fetch : Except ReqError FAResponse) :
    Option String :=
  match fetch with
  | .error _ => none
  | .ok resp => florealpes_searchResp resp

/-! ## `scrape_florealpes` (app.py lines 284–359) -/

/-- The nine image selectors tried in order (app.py lines 293–298). -/
def image_selectors : List Sel :=
  [selDesc (fun n => tagIs "table" n && hasClass n "fiche")
     (fun n => tagIs "img" n && attrEnds n "src" ".jpg"),
   selDesc (fun n => hasClass n "flotte-g")
     (fun n => tagIs "img" n && attrEnds n "src" ".jpg"),
   selSimple (fun n => tagIs "img" n && hasClass n "illustration_details" && attrEnds n "src" ".jpg"),
   selSimple (fun n => tagIs "img" n && attrContains n "alt" "Photo principale" && attrEnds n "src" ".jpg"),
   selDesc (fun n => tagIs "div" n && idIs n "photo_principale")
     (fun n => tagIs "img" n && attrEnds n "src" ".jpg"),
   selSimple (fun n => tagIs "img" n && attrContains n "src" "/Photos/" && attrEnds n "src" ".jpg"),
   selChild (fun n => tagIs "a" n && attrEnds n "href" ".jpg")
     (fun n => tagIs "img" n && attrEnds n "src" ".jpg"),
   selSimple (fun n => tagIs "img" n && attrEnds n "src" ".jpg" && hasAttrB n "width"),
   selSimple (fun n => tagIs "img" n && attrEnds n "src" ".jpg")]

/-- The width acceptance test of the image loop: the `width` attribute
(defaulting to `'9999'`), with `'px'` removed, either fails to parse as an
integer (`ValueError` branch: accepted) or parses to a value greater
than 50. -/
def widthAccepts (img : Node) : Bool :=
  match pyInt? (String.mk (stripPx (attrD img "width" "9999").data)) with
  | some w => 50 < w
  | none => true

/-- The image selector loop (app.py lines 299–315), translated with its
`break`s: a selector whose image fails the width test (an integer width
of at most 50) does not stop the loop. -/
def imgLoop (url : String) (soup : Node) : List Sel → Option String
  | [] => none
  | sel :: rest =>
    match selectOne soup sel with
    | some img =>
      if hasAttrB img "src" then
        if widthAccepts img then some (urljoin url (attrD img "src" ""))
        else imgLoop url soup rest
      else imgLoop url soup rest
    | none => imgLoop url soup rest

/-- The keyword list of the alternative-table heuristic (app.py line 326). -/
def tableKeywords : List String :=
  ["famille", "floraison", "habitat", "description", "plante", "caractères",
   "altitude", "taille"]

/-- The alternative-table test (app.py lines 325–328): the table's
lower-cased text contains at least two of the keywords, and some row has
exactly two `td` cells. -/
def goodAltTable (t : Node) : Bool :=
  decide (2 ≤ tableKeywords.countP fun k => containsStr (pyLower (getTextStrip t)) k)
    && (selectAll t selTr).any fun tr => (selectAll tr selTd).length == 2

/-- The row extraction of `scrape_florealpes` (app.py lines 334–354): every
row with exactly two `td` cells and a non-empty first cell contributes an
(Attribut, Valeur) pair; then rows with a whitespace-only attribute are
filtered out (a no-op, since the extracted text is already stripped) and
an empty table yields `None`. -/
def rowsToTable (tbl : Node) : Option (List (String × String)) :=
  let rows := (selectAll tbl selTr).filterMap fun tr =>
    match selectAll tr selTd with
    | [c1, c2] =>
      let attrText := getTextStrip c1
      if attrText == "" then none else some (attrText, getTextStrip c2)
    | _ => none
  if rows.isEmpty then none
  else
    let filtered := rows.filter fun r => !(pyStrip r.1 == "")
    if filtered.isEmpty then none else some filtered

/-- Selector for `soup.find("table", class_="fiche")`: the first `table`
element whose class list contains `fiche`, in document order. -/
def selTableFiche : Sel :=
  selSimple fun n => tagIs "table" n && hasClass n "fiche"

/-- The characteristics-table extraction of `scrape_florealpes` (app.py
lines 317–354): `table.fiche` if present, otherwise the first table
passing the keyword heuristic (`for ... break` over `find_all("table")`,
i.e. `find?` in document order). -/
def tableExtract (soup : Node) : Option (List (String × String)) :=
  let tbl :=
    match selectOne soup selTableFiche with
    | some t => some t
    | none => (selectAll soup selTable).find? goodAltTable
  tbl.bind rowsToTable

/-- `scrape_florealpes` (app.py lines 284–359): fetch the fiche page via
`fetch_html`; on failure return `(None, None)`, otherwise extract the
image and the characteristics table. -/
def scrape_florealpes (url : String) (fetched : Except ReqError Node) :
    Option String × Option (List (String × String)) :=
  match fetch_html fetched with
  | none => (none, none)
  | some soup => (imgLoop url soup image_selectors, tableExtract soup)

/-! ## URL builders and the Tela Botanica API call -/

/-- `infoflora_url` (app.py lines 361–364): lower-case the species, turn
spaces into dashes, and wrap in the InfoFlora flora URL. -/
def infoflora_url (species : String) : String :=
  let slug := String.mk ((pyLower species).data.map fun c => if c = ' ' then '-' else c)
  "https://www.infoflora.ch/fr/flore/" ++ slug ++ ".html"

/-- The eFlore API URL built by `tela_botanica_url` (app.py lines
368–371): an exact-mode name search for the (URL-quoted) species. -/
def tela_api_url (species : String) : String :=
  "https://api.tela-botanica.org/service:eflore:0.1/names:search?mode=exact&taxon="
    ++ quote_plus species

/-- The outcome of the eFlore API call: a request failure, a JSON
decoding failure (`ValueError` from `response.json()`), or a decoded
value. -/
inductive TelaResp where
  | reqError (msg : String)
  | jsonError (msg : String)
  | ok (data : Json)

/-- `tela_botanica_url` (app.py lines 366–401), applied to the outcome of
the API request it issues.  A falsy response, a response that is not a
non-empty list of objects, a missing or falsy `num_nomen`, and both error
cases all yield `None`; otherwise the bdtfx synthesis URL is built from
the first result's `num_nomen`. -/
def tela_botanica_url (species : String) (resp : TelaResp) : Option String :=
  match resp with
  | .reqError _ => none
  | .jsonError _ => none
  | .ok data =>
    if !pyTruthy data then none
    else
      match data with
      | .arr (first :: _) =>
        match first with
        | .obj fields =>
          match jsonGet fields "num_nomen" with
          | some nn =>
            if pyTruthy nn then
              some ("https://www.tela-botanica.org/bdtfx-nn-" ++ jsonStr nn ++ "-synthese")
            else none
          | none => none
        | _ => none
      | _ => none

/-- `tela_botanica_url` with an explicit log of the HTTP requests its body
performs: exactly one GET of the eFlore exact-search URL. -/
def tela_botanica_urlT (species : String) (resp : TelaResp) :
    Option String × List String :=
  (tela_botanica_url species resp, [tela_api_url species])

/-- `openobs_embed` (app.py lines 426–440): an iframe on the CD_REF-based
OpenObs map when the CSV lookup succeeds, otherwise a warning banner plus
an iframe on the name-based OpenObs map. -/
def openobs_embed (taxrefData : Option TaxDF) (species : String) : String :=
  match get_cd_ref_from_csv taxrefData species with
  | some cd_ref =>
    "<iframe src='" ++ ("https://openobs.mnhn.fr/redirect/inpn/taxa/" ++ cd_ref ++ "?view=map")
      ++ "' width='100%' height='100%' frameborder='0' style='min-height: 450px;'></iframe>"
  | none =>
    "<p style='color: orange; border: 1px solid orange; padding: 5px; border-radius: 3px;'>"
      ++ "Avertissement : CD_REF pour '" ++ species
      ++ "' non récupéré depuis CSV. Carte OpenObs basée sur recherche par nom.</p>"
      ++ "<iframe src='" ++ ("https://openobs.mnhn.fr/map.html?sp=" ++ quote_plus species)
      ++ "' width='100%' height='100%' frameborder='0' style='min-height: 400px;'></iframe>"

/-- `biodivaura_url` (app.py lines 442–452): the CD_REF-based species page
when the CSV lookup succeeds, otherwise the keyword-search URL. -/
def biodivaura_url (taxrefData : Option TaxDF) (species : String) : String :=
  match get_cd_ref_from_csv taxrefData species with
  | some cd_ref =>
    "https://atlas.biodiversite-auvergne-rhone-alpes.fr/espece/" ++ cd_ref
  | none =>
    "https://atlas.biodiversite-auvergne-rhone-alpes.fr/recherche?keyword="
      ++ quote_plus species

/-- `inpn_species_url` (app.py lines 454–464): the CD_REF-based INPN
species page when the CSV lookup succeeds, otherwise the INPN search URL.
The declared Python return type is `str | None`, but both branches return
a string. -/
def inpn_species_url (taxrefData : Option TaxDF) (species : String) : Option String :=
  match get_cd_ref_from_csv taxrefData species with
  | some cd_ref => some ("https://inpn.mnhn.fr/espece/cd_nom/" ++ cd_ref)
  | none =>
    some ("https://inpn.mnhn.fr/collTerr/nomenclature/espece/recherche?texteRecherche="
      ++ quote_plus species)

/-! ## The main UI loop (app.py lines 511–598) -/

/-- The external services the per-species loop contacts: the FloreAlpes
search request, the FloreAlpes fiche-page fetch, and the eFlore API. -/
structure Net where
  searchFA : String → Except ReqError FAResponse
  fetchFA : String → Except ReqError Node
  telaApi : String → TelaResp

/-- Everything the loop renders for one species: the OpenObs map embed in
the main column, and one tab each for FloreAlpes (link, scraped image,
scraped characteristics table), InfoFlora, Tela Botanica, Biodiv'AURA and
INPN. -/
structure SpeciesPanel where
  name : String
  openobs : String
  floreAlpesLink : Option String
  floreAlpesImg : Option String
  floreAlpesTbl : Option (List (String × String))
  infoFlora : String
  telaBotanica : Option String
  biodivAura : String
  inpn : Option String

/-- The body of the per-species loop (app.py lines 516–595): each source
is looked up and rendered into its tab.  The FloreAlpes page is scraped
only when the search produced a fiche URL. -/
def mkPanel (net : Net) (taxrefData : Option TaxDF) (sp : String) : SpeciesPanel :=
  let faLink := florealpes_search sp (net.searchFA sp)
  let scraped :=
    match faLink with
    | some u => scrape_florealpes u (net.fetchFA u)
    | none => (none, none)
  SpeciesPanel.mk sp (openobs_embed taxrefData sp) faLink scraped.1 scraped.2
    (infoflora_url sp) (tela_botanica_url sp (net.telaApi sp))
    (biodivaura_url taxrefData sp) (inpn_species_url taxrefData sp)

/-- What the pressed-button branch renders: either the warning asking for
at least one species name, or one panel per requested species. -/
inductive AppRender where
  | warning
  | panels (ps : List SpeciesPanel)

/-- The pressed-button branch of the UI (app.py lines 511–599): if the
stripped input is non-empty, each stripped non-blank line becomes a
species panel; otherwise a warning is shown and no lookup is performed. -/
def runApp (net : Net) (taxrefData : Option TaxDF) (input_txt : String) : AppRender :=
  if pyStrip input_txt ≠ "" then
    let species_list := ((pySplitlines input_txt).map pyStrip).filter fun s => !(s == "")
    .panels (species_list.map (mkPanel net taxrefData))
  else .warning

/-! ## State-passing view of the lookup operations

To state frame properties, the lookup operations are given in a
state-passing form over the program's mutable data: the CSV file on disk
and the loaded `TAXREF_DATA` table.  Their bodies only read this state —
none of them contains a write to the table or to any file — so each
returns the state it was given. -/

/-- The program's persistent data: the CSV file's contents and the loaded
`TAXREF_DATA` table. -/
structure AppState where
  csvFile : Option (List String)
  taxref : Option TaxDF

/-- State-passing `get_cd_ref_from_csv`: reads `TAXREF_DATA`, writes
nothing. -/
def get_cd_ref_from_csvS (species : String) (s : AppState) :
    Option String × AppState :=
  (get_cd_ref_from_csv s.taxref species, s)

/-- State-passing `openobs_embed`: reads `TAXREF_DATA` through
`get_cd_ref_from_csv`, writes nothing. -/
def openobs_embedS (species : String) (s : AppState) : String × AppState :=
  (openobs_embed s.taxref species, s)

/-- State-passing `biodivaura_url`: reads `TAXREF_DATA` through
`get_cd_ref_from_csv`, writes nothing. -/
def biodivaura_urlS (species : String) (s : AppState) : String × AppState :=
  (biodivaura_url s.taxref species, s)

/-- State-passing `inpn_species_url`: reads `TAXREF_DATA` through
`get_cd_ref_from_csv`, writes nothing. -/
def inpn_species_urlS (species : String) (s : AppState) :
    Option String × AppState :=
  (inpn_species_url s.taxref species, s)

/-! ## Specification-side definitions

Each definition below renders a sentence of the specification in terms of
the same document model, to be compared with the translated program
functions above. -/

/-- The result-row scan of the specification of `florealpes_search`: the
results table is `table.resultats` inside `#principal div.conteneur_tab`,
or else the first table in that container; its rows are scanned in order
and the first row matching `td.symb > a[href^='fiche_']` supplies the link
whose absolute URL is returned; failing that, the results-page URL itself
when it contains both `'fiche_'` and `'.php'`, then the first
`a[href^='fiche_']` anywhere on the page; `none` when the page carries a
known no-results message or every fallback fails. -/
def florealpes_resultSpec (resp : FAResponse) : Option String :=
  if noResultsMessages.any (fun m => containsStr (pyLower resp.text) m) then none
  else
    let table :=
      (selectOne resp.doc selContainer).bind fun c =>
        match selectOne c selTableResultats with
        | some t => some t
        | none => selectOne c selTable
    let fromRows :=
      table.bind fun t =>
        ((selectAll t selTr).findSome? rowFicheLink).map fun a =>
          urljoin resp.url (attrD a "href" "")
    match fromRows with
    | some u => some u
    | none =>
      if containsStr resp.url "fiche_" && containsStr resp.url ".php" then
        some resp.url
      else
        (selectOne resp.doc selGenericFicheLink).map fun a =>
          urljoin resp.url (attrD a "href" "")

/-- The image extraction of the specification of `scrape_florealpes`: the
first of the nine selectors whose matching `img` tag has a `width`
attribute that parses to an integer greater than 50 or does not parse as
an integer supplies the image, whose `src` is resolved against the page
URL. -/
def imageSpec (url : String) (soup : Node) : Option String :=
  image_selectors.findSome? fun sel =>
    (selectOne soup sel).bind fun img =>
      if widthAccepts img then some (urljoin url (attrD img "src" "")) else none

/-- The specification of `scrape_florealpes`: `(none, none)` when the page
cannot be fetched, otherwise the image given by `imageSpec` and the
characteristics table from `table.fiche` (or the keyword-heuristic
fallback table). -/
def scrape_florealpesSpec (url : String) (fetched : Except ReqError Node) :
    Option String × Option (List (String × String)) :=
  match fetched with
  | .error _ => (none, none)
  | .ok soup => (imageSpec url soup, tableExtract soup)

/-- The delimiter-acceptance test of the specification of
`load_cd_ref_data`: a delimiter is accepted when parsing with it yields
whitespace-stripped column names containing both `CD_REF` and `NOM LATIN`,
or, failing that, at least two columns. -/
def acceptsDelim (lines : List String) (d : Char) : Bool :=
  match readCsv lines d with
  | some r =>
    (r.columns.contains "CD_REF" && r.columns.contains "NOM LATIN")
      || decide (2 ≤ r.columns.length)
  | none => false

/-- The specification of `load_cd_ref_data`: the first accepted delimiter
among comma, tab, semicolon supplies the table (columns selected by name,
or the first two renamed), which is cleaned and returned, `none` when no
delimiter is accepted or the cleaned table is empty. -/
def loadSpec (file : Option (List String)) : Option TaxDF :=
  match file with
  | none => none
  | some [] => none
  | some lines =>
    match [',', '\t', ';'].find? (acceptsDelim lines) with
    | none => none
    | some d => ((readCsv lines d).bind selectCols).bind postClean

/-- The specification of `tela_botanica_url`'s response handling: when the
decoded JSON is a non-empty list whose first element is an object carrying
a truthy `num_nomen`, the bdtfx synthesis URL built from that first
result; `none` otherwise (including both error outcomes). -/
def telaSpec (resp : TelaResp) : Option String :=
  match resp with
  | .ok (.arr (.obj fields :: _)) =>
    match jsonGet fields "num_nomen" with
    | some nn =>
      if pyTruthy nn then
        some ("https://www.tela-botanica.org/bdtfx-nn-" ++ jsonStr nn ++ "-synthese")
      else none
    | none => none
  | _ => none

/-! ## Helper lemmas: characters and normalization -/

/-- `Char.ofNat` on a scalar value below the surrogate range decodes to
the same number. -/
theorem toNat_ofNat_small {n : Nat} (h : n < 0xd800) : (Char.ofNat n).toNat = n := by
  rw [Char.ofNat, dif_pos (Or.inl (by omega))]
  rfl

/-- Characters are equal iff their scalar values are. -/
theorem char_eq_iff_toNat (c d : Char) : c = d ↔ c.toNat = d.toNat := by
  constructor
  · intro h; rw [h]
  · intro h
    exact Char.eq_of_val_eq (UInt32.toNat.inj h)

/-- Whitespace characterised by scalar value. -/
theorem ws_iff (c : Char) :
    c.isWhitespace = true ↔ c.toNat = 32 ∨ c.toNat = 9 ∨ c.toNat = 13 ∨ c.toNat = 10 := by
  unfold Char.isWhitespace
  simp only [Bool.or_eq_true, decide_eq_true_eq]
  rw [char_eq_iff_toNat, char_eq_iff_toNat, char_eq_iff_toNat, char_eq_iff_toNat]
  simp only [show (' ').toNat = 32 from rfl, show ('\t').toNat = 9 from rfl,
    show ('\r').toNat = 13 from rfl, show ('\n').toNat = 10 from rfl]
  tauto

/-- ASCII lowering does not change whether a character is whitespace. -/
theorem pyLowerChar_ws (c : Char) : (pyLowerChar c).isWhitespace = c.isWhitespace := by
  unfold pyLowerChar
  split
  · rename_i h
    have h1 : (Char.ofNat (c.toNat + 32)).toNat = c.toNat + 32 := toNat_ofNat_small (by omega)
    apply Bool.eq_iff_iff.mpr
    rw [ws_iff, ws_iff, h1]
    omega
  · rfl

/-- ASCII lowering is idempotent. -/
theorem pyLowerChar_idem (c : Char) : pyLowerChar (pyLowerChar c) = pyLowerChar c := by
  unfold pyLowerChar
  split
  · rename_i h
    have h1 : (Char.ofNat (c.toNat + 32)).toNat = c.toNat + 32 := toNat_ofNat_small (by omega)
    rw [if_neg (by omega)]
  · rfl

/-- Lowering a list of characters twice is the same as lowering once. -/
theorem map_pyLowerChar_idem (cs : List Char) :
    (cs.map pyLowerChar).map pyLowerChar = cs.map pyLowerChar := by
  induction cs with
  | nil => rfl
  | cons c cs ih => simp [pyLowerChar_idem, ih]

/-- Dropping a satisfying prefix twice is the same as dropping once. -/
theorem dropWhile_dropWhile {α : Type} (p : α → Bool) (l : List α) :
    (l.dropWhile p).dropWhile p = l.dropWhile p := by
  cases h : l.dropWhile p with
  | nil => rfl
  | cons x xs =>
    have hx := List.head?_dropWhile_not p l
    rw [h] at hx
    simp only [List.head?_cons] at hx
    simp [List.dropWhile_cons, hx]

/-- Stripping commutes with ASCII lowering. -/
theorem stripChars_map_lower (cs : List Char) :
    stripChars (cs.map pyLowerChar) = (stripChars cs).map pyLowerChar := by
  have hcomp : (Char.isWhitespace ∘ pyLowerChar) = Char.isWhitespace :=
    funext pyLowerChar_ws
  unfold stripChars
  rw [List.dropWhile_map, hcomp, ← List.map_reverse, List.dropWhile_map, hcomp,
    ← List.map_reverse]

/-- Stripping is idempotent. -/
theorem stripChars_idem (cs : List Char) : stripChars (stripChars cs) = stripChars cs := by
  unfold stripChars
  set u := cs.dropWhile Char.isWhitespace with hu
  set v := u.reverse.dropWhile Char.isWhitespace with hv
  have h1 : v.reverse.dropWhile Char.isWhitespace = v.reverse := by
    cases hw : v.reverse with
    | nil => rfl
    | cons x xs =>
      have hvne : v ≠ [] := by
        intro h0
        rw [h0] at hw
        exact (List.cons_ne_nil _ _) hw.symm
      have hlast : v.getLast? = u.head? := by
        have hsuf : v <:+ u.reverse := by
          rw [hv]
          exact List.dropWhile_suffix Char.isWhitespace
        obtain ⟨t, ht⟩ := hsuf
        have := congrArg List.getLast? ht
        rw [List.getLast?_append, List.getLast?_reverse] at this
        cases hvl : v.getLast? with
        | none => exact absurd (List.getLast?_eq_none_iff.mp hvl) hvne
        | some a => rw [hvl] at this; simpa [Option.or] using this
      have hhead : (x :: xs).head? = u.head? := by
        rw [← hw, List.head?_reverse, hlast]
      have hx : Char.isWhitespace x = false := by
        have hnot := List.head?_dropWhile_not Char.isWhitespace cs
        rw [← hu] at hnot
        rw [← hhead] at hnot
        simpa using hnot
      simp [List.dropWhile_cons, hx]
  rw [h1, List.reverse_reverse, hv, dropWhile_dropWhile]

/-- The normalization `strip().lower()` is idempotent. -/
theorem norm_idem (s : String) :
    pyLower (pyStrip (pyLower (pyStrip s))) = pyLower (pyStrip s) := by
  show String.mk ((stripChars ((stripChars s.data).map pyLowerChar)).map pyLowerChar)
      = String.mk ((stripChars s.data).map pyLowerChar)
  rw [stripChars_map_lower, stripChars_idem, map_pyLowerChar_idem]

/-! ## Helper lemmas: selection and loops -/

/-- A node returned by `selectOne` satisfies the selector (paired with
some ancestor chain). -/
theorem selectOne_pred {root : Node} {s : Sel} {n : Node}
    (h : selectOne root s = some n) : ∃ anc, s (n, anc) = true := by
  unfold selectOne at h
  cases hf : (selectAllWA root).find? (fun p => s p) with
  | none => rw [hf] at h; exact absurd h (by simp)
  | some pr =>
    rw [hf] at h
    have hp := List.find?_some hf
    refine ⟨pr.2, ?_⟩
    have hn : pr.1 = n := by simpa using h
    rw [← hn]
    simpa using hp

/-- A node with a matching `[k^='v']` attribute test has attribute `k`. -/
theorem attrStarts_hasAttr {n : Node} {k v : String}
    (h : attrStarts n k v = true) : hasAttrB n k = true := by
  unfold attrStarts at h
  unfold hasAttrB
  cases hg : getAttr n k with
  | none => rw [hg] at h; exact absurd h (by simp)
  | some s => simp

/-- A node with a matching `[k$='v']` attribute test has attribute `k`. -/
theorem attrEnds_hasAttr {n : Node} {k v : String}
    (h : attrEnds n k v = true) : hasAttrB n k = true := by
  unfold attrEnds at h
  unfold hasAttrB
  cases hg : getAttr n k with
  | none => rw [hg] at h; exact absurd h (by simp)
  | some s => simp

/-- The translated row loop of `florealpes_search` is the first-hit scan
over the rows. -/
theorem findRowLink_eq (rows : List Node) :
    findRowLink rows = rows.findSome? rowFicheLink := by
  induction rows with
  | nil => rfl
  | cons r rs ih =>
    rw [findRowLink, List.findSome?_cons]
    cases rowFicheLink r <;> simp [ih]

/-- A link found by the row selector carries an `href` attribute. -/
theorem rowFicheLink_hasHref {row a : Node} (h : rowFicheLink row = some a) :
    hasAttrB a "href" = true := by
  obtain ⟨anc, hp⟩ := selectOne_pred h
  unfold selRowFicheLink selChild at hp
  simp only [Bool.and_eq_true] at hp
  exact attrStarts_hasAttr hp.1.2

/-- A link found by the generic fiche selector carries an `href`
attribute. -/
theorem genericFicheLink_hasHref {doc a : Node}
    (h : selectOne doc selGenericFicheLink = some a) : hasAttrB a "href" = true := by
  obtain ⟨anc, hp⟩ := selectOne_pred h
  unfold selGenericFicheLink selSimple at hp
  simp only [Bool.and_eq_true] at hp
  exact attrStarts_hasAttr hp.2

/-- Every image selector of `scrape_florealpes` requires a `src`
attribute, so any image it finds has one. -/
theorem image_selectors_src {sel : Sel} (hmem : sel ∈ image_selectors)
    {root n : Node} (h : selectOne root sel = some n) : hasAttrB n "src" = true := by
  obtain ⟨anc, hp⟩ := selectOne_pred h
  unfold image_selectors at hmem
  simp only [List.mem_cons, List.not_mem_nil, or_false] at hmem
  rcases hmem with h1 | h1 | h1 | h1 | h1 | h1 | h1 | h1 | h1 <;>
    (subst h1;
     first
     | (unfold selDesc at hp; simp only [Bool.and_eq_true] at hp;
        exact attrEnds_hasAttr hp.1.2)
     | (unfold selChild at hp; simp only [Bool.and_eq_true] at hp;
        exact attrEnds_hasAttr hp.1.2)
     | (unfold selSimple at hp; simp only [Bool.and_eq_true] at hp;
        first
        | exact attrEnds_hasAttr hp.2
        | exact attrEnds_hasAttr hp.1.2))

/-- The translated image loop is the first-hit scan over the selectors,
for selector lists that guarantee a `src` attribute. -/
theorem imgLoop_eq (url : String) (soup : Node) (sels : List Sel)
    (hsrc : ∀ sel ∈ sels, ∀ n, selectOne soup sel = some n → hasAttrB n "src" = true) :
    imgLoop url soup sels = sels.findSome? fun sel =>
      (selectOne soup sel).bind fun img =>
        if widthAccepts img then some (urljoin url (attrD img "src" "")) else none := by
  induction sels with
  | nil => rfl
  | cons sel rest ih =>
    have ih' := ih fun s hs n h => hsrc s (List.mem_cons_of_mem _ hs) n h
    rw [imgLoop, List.findSome?_cons]
    cases hs : selectOne soup sel with
    | none => simpa using ih'
    | some img =>
      have hsa := hsrc sel (List.mem_cons_self _ _) img hs
      cases hw : widthAccepts img with
      | false => simp [hsa, hw, ih']
      | true => simp [hsa, hw]

/-- Column selection succeeds exactly when the delimiter is accepted:
both named columns present, or at least two columns. -/
theorem selectCols_isSome (r : RawCSV) :
    (selectCols r).isSome =
      ((r.columns.contains "CD_REF" && r.columns.contains "NOM LATIN")
        || decide (2 ≤ r.columns.length)) := by
  unfold selectCols
  split
  · rename_i hc
    simp only [Option.isSome_some]
    rw [eq_comm, Bool.or_eq_true]
    exact Or.inl hc
  · rename_i hc
    split
    · rename_i h2
      simp only [Option.isSome_some]
      rw [eq_comm, Bool.or_eq_true]
      exact Or.inr (by simpa using h2)
    · rename_i h2
      simp only [Option.isSome_none, Bool.or_eq_true]
      rw [eq_comm]
      simp only [Bool.or_eq_false_iff]
      exact ⟨by simpa using hc, by simpa using h2⟩

/-- The translated delimiter loop of `load_cd_ref_data` picks the first
accepted delimiter and extracts its two columns. -/
theorem delimLoop_eq (lines : List String) (ds : List Char) :
    delimLoop lines ds = (ds.find? (acceptsDelim lines)).bind
      fun d => (readCsv lines d).bind selectCols := by
  induction ds with
  | nil => rfl
  | cons d rest ih =>
    have hacc : acceptsDelim lines d = ((readCsv lines d).bind selectCols).isSome := by
      unfold acceptsDelim
      cases hr : readCsv lines d with
      | none => rfl
      | some r => simpa using (selectCols_isSome r).symm
    rw [delimLoop, List.find?_cons]
    cases hb : (readCsv lines d).bind selectCols with
    | some df =>
      rw [hb] at hacc
      simp only [Option.isSome_some] at hacc
      simp [hacc, hb]
    | none =>
      rw [hb] at hacc
      simp only [Option.isSome_none] at hacc
      simp [hacc, ih]

/-! ## Helper lemmas: blank input and line splitting -/

/-- Splitting a non-empty character list yields at least one line. -/
theorem splitLinesAux_cons_ne_nil (c : Char) (cs : List Char) :
    splitLinesAux (c :: cs) ≠ [] := by
  rw [splitLinesAux]
  split
  · simp
  · split <;> simp

/-- A whole-list `dropWhile` result is empty iff every element
satisfies the predicate, carried through the dropped part. -/
theorem forall_dropWhile_iff {α : Type} (p : α → Bool) (l : List α) :
    (∀ x ∈ l.dropWhile p, p x = true) ↔ (∀ x ∈ l, p x = true) := by
  constructor
  · intro h x hx
    rw [← List.takeWhile_append_dropWhile p l] at hx
    rcases List.mem_append.mp hx with h1 | h2
    · exact List.mem_takeWhile_imp h1
    · exact h x h2
  · intro h x hx
    exact h x ((List.dropWhile_sublist p).mem hx)

/-- The strip of a character list is empty iff the list is entirely
whitespace. -/
theorem stripChars_eq_nil_iff (cs : List Char) :
    stripChars cs = [] ↔ ∀ c ∈ cs, c.isWhitespace = true := by
  unfold stripChars
  rw [List.reverse_eq_nil_iff, List.dropWhile_eq_nil_iff]
  constructor
  · intro h c hc
    exact (forall_dropWhile_iff _ _).mp (fun x hx => h x (List.mem_reverse.mpr hx)) c hc
  · intro h x hx
    exact (forall_dropWhile_iff _ _).mpr h x (List.mem_reverse.mp hx)

/-- Every line of a split is entirely whitespace iff the original list
is. -/
theorem splitLinesAux_ws (cs : List Char) :
    (∀ l ∈ splitLinesAux cs, ∀ c ∈ l, c.isWhitespace = true)
      ↔ (∀ c ∈ cs, c.isWhitespace = true) := by
  induction cs with
  | nil => simp [splitLinesAux]
  | cons c cs ih =>
    rw [splitLinesAux]
    split
    · rename_i hnl
      have hc : c.isWhitespace = true := by
        rcases hnl with h | h <;> (subst h; rfl)
      rw [List.forall_mem_cons, List.forall_mem_cons]
      simp [hc, ih]
    · rename_i hnl
      cases hsplit : splitLinesAux cs with
      | nil =>
        have hcs : cs = [] := by
          cases cs with
          | nil => rfl
          | cons d ds => exact absurd hsplit (splitLinesAux_cons_ne_nil d ds)
        subst hcs
        simp
      | cons l ls =>
        rw [hsplit] at ih
        rw [List.forall_mem_cons, List.forall_mem_cons, List.forall_mem_cons] at *
        tauto

/-- The stripped input is empty iff no line of the input is non-blank —
the equivalence between the UI's `input_txt.strip()` test and the
specification's "contains no non-empty line". -/
theorem strip_empty_iff_no_line (s : String) :
    (pyStrip s = "") ↔
      ((pySplitlines s).map pyStrip).filter (fun l => !(l == "")) = [] := by
  have hmk : ∀ cs : List Char, (String.mk cs = "") ↔ cs = [] := by
    intro cs
    constructor
    · intro h
      simpa using congrArg String.data h
    · intro h
      subst h
      rfl
  unfold pySplitlines
  rw [show pyStrip s = String.mk (stripChars s.data) from rfl, hmk,
    stripChars_eq_nil_iff, List.filter_eq_nil_iff, List.map_map,
    ← splitLinesAux_ws s.data]
  constructor
  · intro h a ha
    simp only [List.mem_map, Function.comp] at ha
    obtain ⟨cl, hcl, hEq⟩ := ha
    have hstrip : pyStrip (String.mk cl) = "" := by
      rw [show pyStrip (String.mk cl) = String.mk (stripChars cl) from rfl, hmk,
        stripChars_eq_nil_iff]
      exact h cl hcl
    rw [← hEq, hstrip]
    simp
  · intro h l hl
    have hmem : (pyStrip ∘ String.mk) l ∈ (splitLinesAux s.data).map (pyStrip ∘ String.mk) :=
      List.mem_map_of_mem _ hl
    have h2 := h _ hmem
    simp only [Function.comp, Bool.not_eq_true', beq_eq_false_iff_ne, ne_eq,
      Decidable.not_not] at h2
    rw [show pyStrip (String.mk l) = String.mk (stripChars l) from rfl, hmk,
      stripChars_eq_nil_iff] at h2
    exact h2

/-! ## Helper lemmas: filtering, substrings, non-emptiness -/

/-- The head of a filtered list is its first hit. -/
theorem head_filter_eq_find {α : Type} (p : α → Bool) (l : List α) :
    (l.filter p).head? = l.find? p := by
  induction l with
  | nil => rfl
  | cons a l ih =>
    rw [List.filter_cons, List.find?_cons]
    cases hp : p a <;> simp [hp, ih]

/-- A prefix of a list is a prefix of any right-extension. -/
theorem listPrefixB_append {pat xs : List Char} (ys : List Char)
    (h : listPrefixB pat xs = true) : listPrefixB pat (xs ++ ys) = true := by
  induction pat generalizing xs with
  | nil => rfl
  | cons a as ih =>
    cases xs with
    | nil => exact absurd h (by simp [listPrefixB])
    | cons b bs =>
      simp only [List.cons_append, listPrefixB, Bool.and_eq_true] at h ⊢
      exact ⟨h.1, ih h.2⟩

/-- The empty pattern occurs in any list. -/
theorem listSub_nil (ys : List Char) : listSub [] ys = true := by
  cases ys <;> rfl

/-- A substring of a list is a substring of any right-extension. -/
theorem listSub_append_left {pat xs : List Char} (ys : List Char)
    (h : listSub pat xs = true) : listSub pat (xs ++ ys) = true := by
  induction xs with
  | nil =>
    rw [listSub] at h
    have : pat = [] := by simpa using h
    subst this
    simpa using listSub_nil ys
  | cons c cs ih =>
    rw [List.cons_append, listSub]
    rw [listSub, Bool.or_eq_true] at h
    rcases h with h | h
    · rw [Bool.or_eq_true]
      exact Or.inl (by simpa using listPrefixB_append ys h)
    · rw [Bool.or_eq_true]
      exact Or.inr (ih h)

/-- Appending to a non-empty string is non-empty. -/
theorem append_ne_empty_left {a : String} (b : String) (h : a ≠ "") :
    a ++ b ≠ "" := by
  intro he
  apply h
  have hd : a.data ++ b.data = [] := by
    have := congrArg String.data he
    rw [String.data_append] at this
    simpa using this
  have ha : a.data = [] := by
    cases hcons : a.data with
    | nil => rfl
    | cons x xs => rw [hcons] at hd; exact absurd hd (by simp)
  have hmk : a = String.mk a.data := rfl
  rw [hmk, ha]

/-! ## Claim theorems -/

/-- **C7.** The program keeps no persistent storage: every lookup
operation (`get_cd_ref_from_csv`, and through it `openobs_embed`,
`biodivaura_url`, `inpn_species_url`) returns the program state — the CSV
file and the loaded `TAXREF_DATA` table — unchanged; no operation writes
data back to the CSV file or any other store. -/
theorem taxref_frame :
    ∀ (s : AppState) (sp : String),
      (get_cd_ref_from_csvS sp s).2 = s ∧ (openobs_embedS sp s).2 = s ∧
      (biodivaura_urlS sp s).2 = s ∧ (inpn_species_urlS sp s).2 = s :=
  fun _ _ => ⟨rfl, rfl, rfl, rfl⟩

/-- **C8.** For every input species string and any state of the taxon
table, `openobs_embed`, `biodivaura_url` and `inpn_species_url` return a
non-empty string, a CD_REF-based one when the CSV lookup succeeds and a
name-based fallback otherwise; in particular `inpn_species_url`, despite
its declared return type `str | None`, never returns `None`. -/
theorem lookup_urls_nonempty :
    ∀ (td : Option TaxDF) (sp : String),
      openobs_embed td sp ≠ "" ∧ biodivaura_url td sp ≠ "" ∧
      ∃ u, inpn_species_url td sp = some u ∧ u ≠ "" := by
  intro td sp
  unfold openobs_embed biodivaura_url inpn_species_url
  cases get_cd_ref_from_csv td sp with
  | some cd =>
    refine ⟨?_, ?_, ?_⟩
    · apply append_ne_empty_left
      apply append_ne_empty_left
      decide
    · apply append_ne_empty_left
      decide
    · exact ⟨_, rfl, by apply append_ne_empty_left; decide⟩
  | none =>
    refine ⟨?_, ?_, ?_⟩
    · apply append_ne_empty_left
      apply append_ne_empty_left
      apply append_ne_empty_left
      apply append_ne_empty_left
      apply append_ne_empty_left
      decide
    · apply append_ne_empty_left
      decide
    · exact ⟨_, rfl, by apply append_ne_empty_left; decide⟩

/-- **C6.** On any network failure, JSON-decoding failure or unexpected
exception, `fetch_html`, `florealpes_search` and `tela_botanica_url`
return `None` rather than raising, and inside the scraping heuristics a
failed selector attempt just moves the image loop on to the next
selector. -/
theorem lookup_error_handling :
    (∀ e : ReqError, fetch_html (.error e) = none) ∧
    (∀ (sp : String) (e : ReqError), florealpes_search sp (.error e) = none) ∧
    (∀ sp m : String, tela_botanica_url sp (.reqError m) = none) ∧
    (∀ sp m : String, tela_botanica_url sp (.jsonError m) = none) ∧
    (∀ (url : String) (soup : Node) (sel : Sel) (rest : List Sel),
      selectOne soup sel = none →
      imgLoop url soup (sel :: rest) = imgLoop url soup rest) := by
  refine ⟨fun _ => rfl, fun _ _ => rfl, fun _ _ => rfl, fun _ _ => rfl, ?_⟩
  intro url soup sel rest h
  rw [imgLoop, h]

/-- Witness for C6: on an empty document the first image selector finds
nothing, and the loop moves on. -/
theorem lookup_error_handling_witness :
    selectOne (Node.elem "html" [] []) (selSimple (tagIs "img")) = none ∧
    imgLoop "u" (Node.elem "html" [] []) [selSimple (tagIs "img")] =
      imgLoop "u" (Node.elem "html" [] []) [] :=
  ⟨rfl, lookup_error_handling.2.2.2.2 "u" (Node.elem "html" [] [])
    (selSimple (tagIs "img")) [] rfl⟩

/-- **C9.** CD_REF lookup is invariant under leading/trailing whitespace
and letter case: `get_cd_ref_from_csv s` equals
`get_cd_ref_from_csv (s.strip().lower())`; and the lookup returns the
`CD_REF` of the first row whose `NOM_LATIN_normalized` equals the
normalized name (`find?` being the first such row, `none` when there is
none). -/
theorem cd_ref_normalization :
    (∀ (td : Option TaxDF) (s : String),
      get_cd_ref_from_csv td s = get_cd_ref_from_csv td (pyLower (pyStrip s))) ∧
    (∀ (rows : TaxDF) (s : String),
      get_cd_ref_from_csv (some rows) s =
        (rows.find? fun r => r.nom_latin_normalized == pyLower (pyStrip s)).map
          fun r => r.cd_ref) := by
  constructor
  · intro td s
    cases td with
    | none => rfl
    | some rows =>
      unfold get_cd_ref_from_csv
      rw [norm_idem]
  · intro rows s
    unfold get_cd_ref_from_csv
    rw [← head_filter_eq_find]
    cases hfl : rows.filter fun r => r.nom_latin_normalized == pyLower (pyStrip s) <;>
      simp [hfl]

/-- **C2.** `load_cd_ref_data` auto-detects the delimiter by trying comma,
tab, then semicolon, parsing with the file's second line as header, and
accepts the first delimiter for which the stripped column names contain
both `CD_REF` and `NOM LATIN` or, failing that, at least two columns were
parsed (the first two then renamed); `None` when no delimiter yields such
columns or the table is empty after cleaning. -/
theorem load_cd_ref_data_spec :
    ∀ file, load_cd_ref_data file = loadSpec file := by
  intro file
  cases file with
  | none => rfl
  | some lines =>
    cases lines with
    | nil => rfl
    | cons l ls =>
      show (match delimLoop (l :: ls) [',', '\t', ';'] with
            | none => none
            | some df0 => postClean df0) =
        (match [',', '\t', ';'].find? (acceptsDelim (l :: ls)) with
         | none => none
         | some d => ((readCsv (l :: ls) d).bind selectCols).bind postClean)
      rw [delimLoop_eq]
      cases hf : [',', '\t', ';'].find? (acceptsDelim (l :: ls)) with
      | none => rfl
      | some d =>
        show (match (readCsv (l :: ls) d).bind selectCols with
              | none => none
              | some df0 => postClean df0) =
          ((readCsv (l :: ls) d).bind selectCols).bind postClean
        cases (readCsv (l :: ls) d).bind selectCols <;> rfl

/-- **C3 (counterexample).** Two concrete refutations of the claim as
stated.  First, with the CSV unavailable — exactly the case where a
fallback resolution would be needed — resolving a species identifier
performs no HTTP request at all (the request log of `get_cd_ref_from_csv`
is empty) and returns `None`: no TaxRef API call is ever made by the
taxon-identifier resolution.  Second, on a response whose first element
carries a `num_nomen` field that is present but falsy (the empty string),
`tela_botanica_url` returns `None` instead of building the synthesis
URL. -/
theorem taxref_api_counterexample :
    get_cd_ref_from_csvT none "Abies alba" = (none, []) ∧
    tela_botanica_url "Abies alba" (.ok (.arr [.obj [("num_nomen", .str "")]])) = none :=
  ⟨rfl, by decide⟩

/-- **C3 (amended).** Taxon-identifier resolution queries the Tela
Botanica eFlore names:search API with `mode=exact` and, when the decoded
JSON is a non-empty list whose first element is an object carrying a
truthy `num_nomen`, uses that first result to build the bdtfx synthesis
URL, returning `None` otherwise; the CD_REF itself is resolved from the
local TaxRef CSV table, whose lookup performs no API call. -/
theorem tela_resolution :
    (∀ (sp : String) (resp : TelaResp), tela_botanica_url sp resp = telaSpec resp) ∧
    (∀ sp : String, containsStr (tela_api_url sp) "mode=exact" = true) ∧
    (∀ (td : Option TaxDF) (sp : String), (get_cd_ref_from_csvT td sp).2 = []) := by
  refine ⟨?_, ?_, fun _ _ => rfl⟩
  · intro sp resp
    cases resp with
    | reqError m => rfl
    | jsonError m => rfl
    | ok data =>
      cases data with
      | null => rfl
      | bool b => cases b <;> rfl
      | num n => simp [tela_botanica_url, telaSpec, ite_self]
      | str s => simp [tela_botanica_url, telaSpec, ite_self]
      | obj fs => simp [tela_botanica_url, telaSpec, ite_self]
      | arr xs =>
        cases xs with
        | nil => rfl
        | cons first rest => cases first <;> rfl
  · intro sp
    unfold tela_api_url containsStr
    rw [String.data_append]
    exact listSub_append_left _ (by decide)

/-- **C4.** For every fetched FloreAlpes species page, `scrape_florealpes`
extracts the image given by the first of the nine selectors whose `img`
has a `width` that parses to an integer greater than 50 or does not parse
as an integer (its `src` resolved against the page URL), and the
two-column characteristics table built from every row with exactly two
`td` cells and a non-empty first cell, out of `table.fiche` or the first
keyword-matching table; it returns `(None, None)` when the page cannot be
fetched. -/
theorem scrape_florealpes_spec :
    ∀ (url : String) (fetched : Except ReqError Node),
      scrape_florealpes url fetched = scrape_florealpesSpec url fetched := by
  intro url fetched
  cases fetched with
  | error e => rfl
  | ok soup =>
    show (imgLoop url soup image_selectors, tableExtract soup)
        = (imageSpec url soup, tableExtract soup)
    rw [imgLoop_eq]
    · rfl
    · intro sel hmem n h
      exact image_selectors_src hmem h

/-- The two fallback chains of `florealpes_search` agree: the source's
`has_attr('href')` guard is redundant for a link matched by
`a[href^='fiche_']`. -/
theorem fallback_eq (resp : FAResponse) :
    (if containsStr resp.url "fiche_" && containsStr resp.url ".php" then
       some resp.url
     else
       match selectOne resp.doc selGenericFicheLink with
       | some g =>
         if hasAttrB g "href" then some (urljoin resp.url (attrD g "href" "")) else none
       | none => none) =
    (if containsStr resp.url "fiche_" && containsStr resp.url ".php" then
       some resp.url
     else
       (selectOne resp.doc selGenericFicheLink).map fun a =>
         urljoin resp.url (attrD a "href" "")) := by
  cases hc : containsStr resp.url "fiche_" && containsStr resp.url ".php" with
  | true => simp [hc]
  | false =>
    simp only [hc, Bool.false_eq_true, if_false]
    cases hg : selectOne resp.doc selGenericFicheLink with
    | none => rfl
    | some g => simp [genericFicheLink_hasHref hg]

/-- The `has_attr('href')` guard on the row-scan link is likewise
redundant, for any candidate results table. -/
theorem direct_opt_eq (url : String) (o : Option Node) :
    (match o.bind fun t => List.findSome? rowFicheLink (selectAll t selTr) with
     | some a => if hasAttrB a "href" then some (urljoin url (attrD a "href" "")) else none
     | none => none) =
    (o.bind fun t => (List.findSome? rowFicheLink (selectAll t selTr)).map fun a =>
      urljoin url (attrD a "href" "")) := by
  cases o with
  | none => rfl
  | some t =>
    show (match List.findSome? rowFicheLink (selectAll t selTr) with
          | some a => if hasAttrB a "href" then some (urljoin url (attrD a "href" "")) else none
          | none => none) =
      ((List.findSome? rowFicheLink (selectAll t selTr)).map fun a =>
        urljoin url (attrD a "href" ""))
    cases hfs : List.findSome? rowFicheLink (selectAll t selTr) with
    | none => rfl
    | some a =>
      obtain ⟨row, hmem, hrl⟩ := List.exists_of_findSome?_eq_some hfs
      simp [rowFicheLink_hasHref hrl]

/-- **C1.** For every species string and every successfully fetched
results page, `florealpes_search` behaves as specified: it scans the rows
of the results table in order and returns the absolute URL of the link of
the first row matching `td.symb > a[href^='fiche_']`, falls back to the
results-page URL itself when that URL contains both `'fiche_'` and
`'.php'`, then to the first `a[href^='fiche_']` anywhere on the page, and
returns `None` when the page carries a known no-results message or every
fallback fails. -/
theorem florealpes_search_spec :
    ∀ (species : String) (resp : FAResponse),
      florealpes_search species (.ok resp) = florealpes_resultSpec resp := by
  intro species resp
  show florealpes_searchResp resp = florealpes_resultSpec resp
  unfold florealpes_searchResp florealpes_resultSpec
  cases hnr : noResultsMessages.any (fun m => containsStr (pyLower resp.text) m) with
  | true => simp [hnr]
  | false =>
    simp only [hnr, Bool.false_eq_true, if_false, findRowLink_eq]
    rw [direct_opt_eq]
    cases hX : ((selectOne resp.doc selContainer).bind fun c =>
        match selectOne c selTableResultats with
        | some t => some t
        | none => selectOne c selTable).bind
          (fun t => (List.findSome? rowFicheLink (selectAll t selTr)).map fun a =>
            urljoin resp.url (attrD a "href" "")) with
    | some u => rfl
    | none => exact fallback_eq resp

/-- **C5.** For every non-empty line of the input text area (stripped,
empty lines discarded) the app renders one species panel holding all six
sources: the OpenObs map embed plus the FloreAlpes tab (link, scraped
image, scraped characteristics table), InfoFlora, Tela Botanica,
Biodiv'AURA and INPN; when the input contains no non-empty line, no
lookup is performed and a warning is shown. -/
theorem ui_loop_spec :
    ∀ (net : Net) (td : Option TaxDF) (input : String),
      runApp net td input =
        if ((pySplitlines input).map pyStrip).filter (fun l => !(l == "")) = [] then
          AppRender.warning
        else
          AppRender.panels
            ((((pySplitlines input).map pyStrip).filter (fun l => !(l == ""))).map
              fun sp =>
                SpeciesPanel.mk sp (openobs_embed td sp)
                  (florealpes_search sp (net.searchFA sp))
                  (match florealpes_search sp (net.searchFA sp) with
                    | some u => scrape_florealpes u (net.fetchFA u)
                    | none => (none, none)).1
                  (match florealpes_search sp (net.searchFA sp) with
                    | some u => scrape_florealpes u (net.fetchFA u)
                    | none => (none, none)).2
                  (infoflora_url sp) (tela_botanica_url sp (net.telaApi sp))
                  (biodivaura_url td sp) (inpn_species_url td sp)) := by
  intro net td input
  unfold runApp
  by_cases h : pyStrip input = ""
  · rw [if_neg (not_not_intro h), if_pos ((strip_empty_iff_no_line input).mp h)]
  · rw [if_pos h, if_neg (fun hc => h ((strip_empty_iff_no_line input).mpr hc))]
    rfl

/-- The cleaning stage of `load_cd_ref_data` only emits tables satisfying
the downstream invariant. -/
theorem postClean_inv (df0 : List (Option String × Option String)) (df : TaxDF)
    (h : postClean df0 = some df) :
    df ≠ [] ∧ ∀ r ∈ df,
      pyStrip r.cd_ref ≠ "" ∧ pyStrip r.nom_latin ≠ "" ∧
      r.nom_latin_normalized = pyLower (pyStrip r.nom_latin) := by
  simp only [postClean] at h
  split at h
  · exact absurd h (by simp)
  · split at h
    · exact absurd h (by simp)
    · rename_i hne3
      have hdf : df =
          ((df0.map fun p =>
              (⟨pyStr p.1, pyStr p.2, pyLower (pyStrip (pyStr p.2))⟩ : TaxRow)).filter
            (fun r => !(pyStrip r.cd_ref == ""))).filter
              (fun r => !(pyStrip r.nom_latin == "")) := by
        have := Option.some.inj h
        exact this.symm
      constructor
      · intro h0
        rw [h0] at hdf
        rw [← hdf] at hne3
        simp at hne3
      · intro r hr
        rw [hdf] at hr
        have hr2 := List.mem_filter.mp hr
        have hr1 := List.mem_filter.mp hr2.1
        obtain ⟨p, hp, hmk⟩ := List.mem_map.mp hr1.1
        refine ⟨?_, ?_, ?_⟩
        · simpa using hr1.2
        · simpa using hr2.2
        · rw [← hmk]

/-- **C10.** Whenever `load_cd_ref_data` returns a table rather than
`None`, the table is non-empty, every row's `CD_REF` and `NOM LATIN`
entries are non-empty after stripping, and `NOM_LATIN_normalized` is the
stripped, lower-cased `NOM LATIN`, row by row. -/
theorem load_invariant :
    ∀ (file : Option (List String)) (df : TaxDF),
      load_cd_ref_data file = some df →
      df ≠ [] ∧ ∀ r ∈ df,
        pyStrip r.cd_ref ≠ "" ∧ pyStrip r.nom_latin ≠ "" ∧
        r.nom_latin_normalized = pyLower (pyStrip r.nom_latin) := by
  intro file df h
  cases file with
  | none => exact absurd h (by simp [load_cd_ref_data])
  | some lines =>
    cases lines with
    | nil => exact absurd h (by simp [load_cd_ref_data])
    | cons l ls =>
      rw [show load_cd_ref_data (some (l :: ls)) =
          (match delimLoop (l :: ls) [',', '\t', ';'] with
           | none => none
           | some df0 => postClean df0) from rfl] at h
      cases hd : delimLoop (l :: ls) [',', '\t', ';'] with
      | none => rw [hd] at h; exact absurd h (by simp)
      | some df0 =>
        rw [hd] at h
        exact postClean_inv df0 df h

/-- Witness for C10 at a concrete three-line CSV file. -/
theorem load_invariant_witness :
    load_cd_ref_data (some ["DATA", "CD_REF,NOM LATIN", "81065,Abies alba"]) =
      some [⟨"81065", "Abies alba", "abies alba"⟩] ∧
    (([⟨"81065", "Abies alba", "abies alba"⟩] : TaxDF) ≠ [] ∧
      ∀ r ∈ ([⟨"81065", "Abies alba", "abies alba"⟩] : TaxDF),
        pyStrip r.cd_ref ≠ "" ∧ pyStrip r.nom_latin ≠ "" ∧
        r.nom_latin_normalized = pyLower (pyStrip r.nom_latin)) :=
  ⟨by decide,
   load_invariant (some ["DATA", "CD_REF,NOM LATIN", "81065,Abies alba"])
     [⟨"81065", "Abies alba", "abies alba"⟩] (by decide)⟩
